import Mathlib

/-!
Shallow embedding of the `soy` easing library (`src/bezier.rs`, `src/lib.rs`,
`src/constants.rs`).

The library's `f32` arithmetic is modelled in two complementary ways:

* The main model interprets every `f32` value and operation as exact rational
  arithmetic over `ℚ`; decimal literals of the source denote their exact
  rational values.  All solver theorems are stated in this model.
* A second model (`F32`, `roundF32`, further below) implements IEEE-754
  binary32 round-to-nearest-even arithmetic, including overflow to infinity.
  It is used for the claims that hinge on exact bit-level `f32` results.

The `while low < high` bisection loop of `Bezier::solve_x` has no iteration
cap in the source; it is modelled with an explicit fuel parameter, and the
theorems about it quantify over all sufficiently large fuel values.
-/


/-- The curve model of `src/bezier.rs`: cubic coefficient triples `(a, b, c)`
for the x and y components (`Bezier.x`, `Bezier.y` in the source). -/
structure Bezier where
  x : ℚ × ℚ × ℚ
  y : ℚ × ℚ × ℚ
deriving DecidableEq

/-- Translation of `Bezier::new` (src/bezier.rs lines 37-51).  Rust's `by`
binding is renamed `bY` because `by` is a Lean keyword. -/
def Bezier.new (x1 y1 x2 y2 : ℚ) : Bezier :=
  let cx := 3 * x1
  let bx := 3 * (x2 - x1) - cx
  let ax := 1 - cx - bx
  let cy := 3 * y1
  let bY := 3 * (y2 - y1) - cy
  let ay := 1 - cy - bY
  { x := (ax, bx, cx), y := (ay, bY, cy) }

/-- Translation of the associated constant `Bezier::NEWTON_ITERATIONS = 8`. -/
def Bezier.NEWTON_ITERATIONS : ℕ := 8

/-- Translation of the associated constant `Bezier::EPSILON = 1.0 / 200.0`. -/
def Bezier.EPSILON : ℚ := 1 / 200

/-- Translation of `f32::abs`, written with an explicit comparison so that it
evaluates by kernel reduction on concrete rationals. -/
def rabs (q : ℚ) : ℚ := if q < 0 then -q else q

/-- Translation of the free function `approx_eq` (src/bezier.rs lines 124-126):
`(a - b).abs() < epsilon`. -/
def approx_eq (a b epsilon : ℚ) : Bool := rabs (a - b) < epsilon

/-- Translation of `Bezier::sample_x`: `((a * t + b) * t + c) * t` on the x
coefficients. -/
def Bezier.sample_x (bz : Bezier) (t : ℚ) : ℚ :=
  ((bz.x.1 * t + bz.x.2.1) * t + bz.x.2.2) * t

/-- Translation of `Bezier::sample_y`: `((a * t + b) * t + c) * t` on the y
coefficients. -/
def Bezier.sample_y (bz : Bezier) (t : ℚ) : ℚ :=
  ((bz.y.1 * t + bz.y.2.1) * t + bz.y.2.2) * t

/-- Translation of `Bezier::sample_derivative_x`:
`(3.0 * a * t + 2.0 * b) * t + c` on the x coefficients. -/
def Bezier.sample_derivative_x (bz : Bezier) (t : ℚ) : ℚ :=
  (3 * bz.x.1 * t + 2 * bz.x.2.1) * t + bz.x.2.2

/-- The Newton phase of `Bezier::solve_x` (src/bezier.rs lines 73-88): the
`for _ in 0..NEWTON_ITERATIONS` loop over the mutable guess `t`.  `some t`
models the early `return t` on convergence; `none` models both the `break` on
a near-zero derivative and exhaustion of the iteration count, after which the
source falls through to the bisection phase. -/
def Bezier.newton_loop (bz : Bezier) (x : ℚ) : ℕ → ℚ → Option ℚ
  | 0, _ => none
  | n + 1, t =>
    let x2 := bz.sample_x t
    if approx_eq x2 x Bezier.EPSILON then some t
    else
      let dx := bz.sample_derivative_x t
      if approx_eq dx 0 (1 / 1000000) then none
      else bz.newton_loop x n (t - (x2 - x) / dx)

/-- The bisection fallback of `Bezier::solve_x` (src/bezier.rs lines 100-114):
the `while low < high` loop.  The source has no iteration cap; `fuel` makes
the recursion structural, and when it runs out the current `t` is returned,
exactly as the source returns `t` when `low < high` fails.  The recomputation
`t = (high - low) / 2.0 + low` is inlined into each branch with the updated
bound substituted. -/
def Bezier.bisect (bz : Bezier) (x : ℚ) : ℕ → ℚ → ℚ → ℚ → ℚ
  | 0, _, _, t => t
  | fuel + 1, low, high, t =>
    if low < high then
      let x2 := bz.sample_x t
      if approx_eq x2 x Bezier.EPSILON then t
      else if x > x2 then bz.bisect x fuel t high ((high - t) / 2 + t)
      else bz.bisect x fuel low t ((t - low) / 2 + low)
    else t

/-- Translation of `Bezier::solve_x` (src/bezier.rs lines 72-115): Newton's
method, then the fallback `let (mut low, mut high, mut t) = (0.0, 1.0, x)`
with the clamping early returns, then bisection. -/
def Bezier.solve_x (bz : Bezier) (x : ℚ) (fuel : ℕ) : ℚ :=
  match bz.newton_loop x Bezier.NEWTON_ITERATIONS x with
  | some t => t
  | none =>
    if x < 0 then 0
    else if x > 1 then 1
    else bz.bisect x fuel 0 1 x

/-- Translation of `impl Lerper for Bezier` (src/bezier.rs lines 118-122):
`self.sample_y(self.solve_x(t))`. -/
def Bezier.calculate (bz : Bezier) (t : ℚ) (fuel : ℕ) : ℚ :=
  bz.sample_y (bz.solve_x t fuel)

/-- Translation of the constant `EASE` (src/constants.rs lines 4-7). -/
def EASE : Bezier :=
  { x := (1.0, -0.75, 0.75), y := (-1.7, 2.4, 0.3) }

/-- Translation of the constant `EASE_IN` (src/constants.rs lines 10-13). -/
def EASE_IN : Bezier :=
  { x := (-0.74, 0.48, 1.26), y := (-2.0, 3.0, 0.0) }

/-- Translation of the constant `EASE_OUT` (src/constants.rs lines 16-19). -/
def EASE_OUT : Bezier :=
  { x := (-0.74, 1.74, 0.0), y := (-2.0, 3.0, 0.0) }

/-- Translation of the constant `EASE_IN_OUT` (src/constants.rs lines 22-25). -/
def EASE_IN_OUT : Bezier :=
  { x := (0.52, -0.78, 1.26), y := (-2.0, 3.0, 0.0) }

/-- Translation of the y-only tween `struct CubicBezier(pub f32, pub f32)`
(src/lib.rs line 66). -/
structure CubicBezier where
  p : ℚ
  q : ℚ

/-- Translation of `impl Tween for CubicBezier` (src/lib.rs lines 75-86):
the Bernstein-form evaluation `3(1-t)^2 t p + 3(1-t) t^2 q + t^3`. -/
def CubicBezier.calculate (cb : CubicBezier) (t : ℚ) : ℚ :=
  let a := 3 * (1 - t) ^ 2 * t
  let b := 3 * (1 - t) * t ^ 2
  let c := t ^ 3
  a * cb.p + b * cb.q + c

/-- Definition following the spec's wording for the Construct operation
(spec §3): `cx = 3*x1; bx = 3*(x2-x1) - cx; ax = 1 - cx - bx` and
`cy = 3*y1; by = 3*(y2-y1) - cy; ay = 1 - cy - by`, collected into a curve
value.  To be compared with the source translation `Bezier.new`. -/
def specConstruct (x1 y1 x2 y2 : ℚ) : Bezier :=
  let cx := 3 * x1
  let bx := 3 * (x2 - x1) - cx
  let ax := 1 - cx - bx
  let cy := 3 * y1
  let bY := 3 * (y2 - y1) - cy
  let ay := 1 - cy - bY
  { x := (ax, bx, cx), y := (ay, bY, cy) }

/-- Definition following the spec's wording for Phase 1 of the solver
(spec §4.2): initialize the guess `t := target_x`; repeat up to 8 times:
compute `x2 = evaluate_x(t)`; if `|x2 - target_x| < EPSILON` return `t`;
compute `dx`; if `|dx| < 1e-6` abandon Newton's method; otherwise update
`t := t - (x2 - target_x) / dx`.  To be compared with the source translation
`Bezier.newton_loop`. -/
def specNewtonPhase (bz : Bezier) (target : ℚ) : ℕ → ℚ → Option ℚ
  | 0, _ => none
  | n + 1, t =>
    if |bz.sample_x t - target| < 1 / 200 then some t
    else if |bz.sample_derivative_x t| < 1 / 1000000 then none
    else specNewtonPhase bz target n (t - (bz.sample_x t - target) / bz.sample_derivative_x t)

/-- Definition following the spec's wording for Phase 2 of the solver
(spec §4.2): iterate while `low < high`; return `t` when
`|x2 - target_x| < EPSILON`; narrow by `low := t` when `target_x > x2` and
by `high := t` otherwise; recompute `t := low + (high - low) / 2`.  To be
compared with the source translation `Bezier.bisect`. -/
def specBisection (bz : Bezier) (target : ℚ) : ℕ → ℚ → ℚ → ℚ → ℚ
  | 0, _, _, t => t
  | n + 1, low, high, t =>
    if low < high then
      if |bz.sample_x t - target| < 1 / 200 then t
      else if target > bz.sample_x t then
        specBisection bz target n t high (t + (high - t) / 2)
      else specBisection bz target n low t (low + (t - low) / 2)
    else t

/-- Definition following the spec's wording for the full solver: Phase 1 from
`t := target_x`; on failure the accumulated `t` is discarded and Phase 2
reinitializes `low := 0`, `high := 1`, `t := target_x`, clamps out-of-range
targets, and runs the bisection loop. -/
def specSolve (bz : Bezier) (target : ℚ) (fuel : ℕ) : ℚ :=
  match specNewtonPhase bz target 8 target with
  | some t => t
  | none =>
    if target < 0 then 0
    else if target > 1 then 1
    else specBisection bz target fuel 0 1 target

/-- A coefficient-derived Lipschitz bound for `sample_x` on the unit interval:
`3|a| + 2|b| + |c|`. -/
def Bezier.lipschitz_x (bz : Bezier) : ℚ :=
  3 * rabs bz.x.1 + 2 * rabs bz.x.2.1 + rabs bz.x.2.2

/-- IEEE-754 binary32 values: a finite value (held as its exact rational),
a signed infinity (`true` = negative), or NaN.  The two IEEE zeroes are
conflated into `fin 0`, which is adequate for the operations exercised
here. -/
inductive F32 where
  | fin : ℚ → F32
  | inf : Bool → F32
  | nan : F32
deriving DecidableEq

/-- Integer power of two as a rational. -/
def pow2 : ℤ → ℚ
  | Int.ofNat n => 2 ^ n
  | Int.negSucc n => 1 / 2 ^ (n + 1)

/-- Binary exponent search upward: for `1 ≤ q`, the largest `e` with
`2 ^ e ≤ q` (fuel-bounded structural recursion). -/
def expUp : ℕ → ℚ → ℤ
  | 0, _ => 0
  | fuel + 1, q => if q < 2 then 0 else expUp fuel (q / 2) + 1

/-- Binary exponent search downward: for `0 < q < 1`, the (negative) `e`
with `2 ^ e ≤ q < 2 ^ (e+1)`. -/
def expDown : ℕ → ℚ → ℤ
  | 0, _ => 0
  | fuel + 1, q => if 1 ≤ q then 0 else expDown fuel (2 * q) - 1

/-- Floor of the binary logarithm of a positive rational (adequate up to
`2 ^ 512` and down to `2 ^ (-512)`, far beyond the f32 range). -/
def floorLog2 (q : ℚ) : ℤ := if 1 ≤ q then expUp 512 q else expDown 512 q

/-- Round a rational to the nearest integer, ties to even. -/
def roundHalfEven (x : ℚ) : ℤ :=
  let n := x.floor
  let r := x - n
  if r < 1 / 2 then n
  else if 1 / 2 < r then n + 1
  else if n % 2 = 0 then n else n + 1

/-- IEEE-754 binary32 rounding (round to nearest, ties to even) of an exact
rational: the exponent is found (clamped at the subnormal limit -126), the
mantissa rounded to 24 bits, and results of magnitude `2 ^ 128` or more
overflow to a signed infinity. -/
def roundF32 (q : ℚ) : F32 :=
  if q = 0 then F32.fin 0
  else
    let aq := rabs q
    let e := max (floorLog2 aq) (-126)
    let ulp := pow2 (e - 23)
    let n := roundHalfEven (aq / ulp)
    let r := (n : ℚ) * ulp
    if (2 : ℚ) ^ 128 ≤ r then F32.inf (q < 0)
    else F32.fin (if q < 0 then -r else r)

/-- f32 negation. -/
def F32.neg : F32 → F32
  | .fin q => .fin (-q)
  | .inf s => .inf (!s)
  | .nan => .nan

/-- f32 addition. -/
def F32.add : F32 → F32 → F32
  | .nan, _ => .nan
  | .fin a, .fin b => roundF32 (a + b)
  | .fin _, .inf s => .inf s
  | .fin _, .nan => .nan
  | .inf s, .fin _ => .inf s
  | .inf s, .inf t => if s = t then .inf s else .nan
  | .inf _, .nan => .nan

/-- f32 subtraction. -/
def F32.sub (a b : F32) : F32 := F32.add a (F32.neg b)

/-- f32 multiplication. -/
def F32.mul : F32 → F32 → F32
  | .nan, _ => .nan
  | .fin a, .fin b => roundF32 (a * b)
  | .fin a, .inf s => if a = 0 then .nan else .inf (xor (decide (a < 0)) s)
  | .fin _, .nan => .nan
  | .inf s, .fin b => if b = 0 then .nan else .inf (xor s (decide (b < 0)))
  | .inf s, .inf t => .inf (xor s t)
  | .inf _, .nan => .nan

/-- f32 division. -/
def F32.div : F32 → F32 → F32
  | .nan, _ => .nan
  | .fin a, .fin b =>
    if b = 0 then (if a = 0 then .nan else .inf (decide (a < 0)))
    else roundF32 (a / b)
  | .fin _, .inf _ => .fin 0
  | .fin _, .nan => .nan
  | .inf s, .fin b => .inf (xor s (decide (b < 0)))
  | .inf _, .inf _ => .nan
  | .inf _, .nan => .nan

/-- f32 strict comparison (false whenever NaN is involved). -/
def F32.lt : F32 → F32 → Bool
  | .nan, _ => false
  | _, .nan => false
  | .fin a, .fin b => decide (a < b)
  | .fin _, .inf s => !s
  | .inf s, .fin _ => s
  | .inf s, .inf t => s && !t

/-- f32 absolute value. -/
def F32.abs : F32 → F32
  | .fin a => .fin (rabs a)
  | .inf _ => .inf false
  | .nan => .nan

/-- Translation of `approx_eq` under f32 semantics. -/
def approx_eq32 (a b epsilon : F32) : Bool := F32.lt (F32.abs (F32.sub a b)) epsilon

/-- The constant `Bezier::EPSILON = 1.0 / 200.0` under f32 semantics. -/
def EPSILON32 : F32 := F32.div (roundF32 1) (roundF32 200)

/-- The curve model with f32 coefficient triples. -/
structure BezierF32 where
  x : F32 × F32 × F32
  y : F32 × F32 × F32
deriving DecidableEq

/-- Translation of `Bezier::new` under f32 semantics: every arithmetic
operation rounds. -/
def BezierF32.new (x1 y1 x2 y2 : F32) : BezierF32 :=
  let three := roundF32 3
  let one := roundF32 1
  let cx := F32.mul three x1
  let bx := F32.sub (F32.mul three (F32.sub x2 x1)) cx
  let ax := F32.sub (F32.sub one cx) bx
  let cy := F32.mul three y1
  let bY := F32.sub (F32.mul three (F32.sub y2 y1)) cy
  let ay := F32.sub (F32.sub one cy) bY
  { x := (ax, bx, cx), y := (ay, bY, cy) }

/-- Translation of `Bezier::sample_x` under f32 semantics. -/
def BezierF32.sample_x (bz : BezierF32) (t : F32) : F32 :=
  F32.mul (F32.add (F32.mul (F32.add (F32.mul bz.x.1 t) bz.x.2.1) t) bz.x.2.2) t

/-- Translation of `Bezier::sample_y` under f32 semantics. -/
def BezierF32.sample_y (bz : BezierF32) (t : F32) : F32 :=
  F32.mul (F32.add (F32.mul (F32.add (F32.mul bz.y.1 t) bz.y.2.1) t) bz.y.2.2) t

/-- Translation of `Bezier::sample_derivative_x` under f32 semantics. -/
def BezierF32.sample_derivative_x (bz : BezierF32) (t : F32) : F32 :=
  F32.add
    (F32.mul
      (F32.add (F32.mul (F32.mul (roundF32 3) bz.x.1) t) (F32.mul (roundF32 2) bz.x.2.1)) t)
    bz.x.2.2

/-- The Newton phase of `Bezier::solve_x` under f32 semantics. -/
def BezierF32.newton_loop (bz : BezierF32) (x : F32) : ℕ → F32 → Option F32
  | 0, _ => none
  | n + 1, t =>
    let x2 := bz.sample_x t
    if approx_eq32 x2 x EPSILON32 then some t
    else
      let dx := bz.sample_derivative_x t
      if approx_eq32 dx (roundF32 0) (roundF32 (1 / 1000000)) then none
      else bz.newton_loop x n (F32.sub t (F32.div (F32.sub x2 x) dx))

/-- The bisection fallback of `Bezier::solve_x` under f32 semantics
(fuel-bounded as in the rational model). -/
def BezierF32.bisect (bz : BezierF32) (x : F32) : ℕ → F32 → F32 → F32 → F32
  | 0, _, _, t => t
  | fuel + 1, low, high, t =>
    if F32.lt low high then
      let x2 := bz.sample_x t
      if approx_eq32 x2 x EPSILON32 then t
      else if F32.lt x2 x then
        bz.bisect x fuel t high (F32.add (F32.div (F32.sub high t) (roundF32 2)) t)
      else bz.bisect x fuel low t (F32.add (F32.div (F32.sub t low) (roundF32 2)) low)
    else t

/-- Translation of `Bezier::solve_x` under f32 semantics. -/
def BezierF32.solve_x (bz : BezierF32) (x : F32) (fuel : ℕ) : F32 :=
  match bz.newton_loop x 8 x with
  | some t => t
  | none =>
    if F32.lt x (roundF32 0) then roundF32 0
    else if F32.lt (roundF32 1) x then roundF32 1
    else bz.bisect x fuel (roundF32 0) (roundF32 1) x

/-- Translation of `Lerper::calculate` for `Bezier` under f32 semantics. -/
def BezierF32.calculate (bz : BezierF32) (t : F32) (fuel : ℕ) : F32 :=
  bz.sample_y (bz.solve_x t fuel)

/-- The curve built (under f32 semantics) from the finite control points
`(300000, 0, -300000, 0)`; its x coefficients are exactly
`(1800001, -2700000, 900000)`.  On this curve the f32 bisection loop can
repeat a state forever. -/
def hangCurve : BezierF32 :=
  BezierF32.new (F32.fin 300000) (F32.fin 0) (F32.fin (-300000)) (F32.fin 0)

/-- The in-range target `0.95f32 = 15938355 / 2^24` for the hanging run. -/
def hangTarget : F32 := roundF32 0.95

/-- The `low` bound of the repeating bisection state: the largest f32 below
one, `16777215 / 2^24`. -/
def hangLow : F32 := F32.fin (16777215 / 16777216)

/-- The explicit absolute value agrees with Mathlib's. -/
theorem rabs_eq_abs (q : ℚ) : rabs q = |q| := by
  by_cases h : q < 0
  · rw [rabs, if_pos h, abs_of_neg h]
  · rw [rabs, if_neg h, abs_of_nonneg (not_lt.1 h)]

/-- Sampling the x polynomial at 0 gives exactly 0, for any coefficients. -/
theorem Bezier.sample_x_zero (bz : Bezier) : bz.sample_x 0 = 0 := by
  simp [Bezier.sample_x]

/-- Sampling the y polynomial at 0 gives exactly 0, for any coefficients. -/
theorem Bezier.sample_y_zero (bz : Bezier) : bz.sample_y 0 = 0 := by
  simp [Bezier.sample_y]

/-- The construction invariant: the x coefficients of a constructed curve sum
to 1, so `sample_x 1 = 1`. -/
theorem Bezier.new_x_sum (x1 y1 x2 y2 : ℚ) :
    (Bezier.new x1 y1 x2 y2).x.1 + (Bezier.new x1 y1 x2 y2).x.2.1 +
      (Bezier.new x1 y1 x2 y2).x.2.2 = 1 := by
  simp [Bezier.new]

/-- Unfolding characterization of the boolean `approx_eq`. -/
theorem approx_eq_true_iff (a b epsilon : ℚ) :
    approx_eq a b epsilon = true ↔ |a - b| < epsilon := by
  simp [approx_eq, rabs_eq_abs]

/-- Sampling x at parameter 1 evaluates to the coefficient sum. -/
theorem Bezier.sample_x_one (bz : Bezier) :
    bz.sample_x 1 = bz.x.1 + bz.x.2.1 + bz.x.2.2 := by
  simp [Bezier.sample_x]

/-- If the convergence test of the Newton loop succeeds at the current guess,
the loop returns that guess immediately. -/
theorem Bezier.newton_loop_succ_close (bz : Bezier) (x t : ℚ) (n : ℕ)
    (h : approx_eq (bz.sample_x t) x Bezier.EPSILON = true) :
    bz.newton_loop x (n + 1) t = some t := by
  simp [Bezier.newton_loop, h]

/-- The Newton loop starting at guess 0 converges at once, since
`sample_x 0 = 0`. -/
theorem Bezier.solve_x_zero (bz : Bezier) (fuel : ℕ) : bz.solve_x 0 fuel = 0 := by
  have h : approx_eq (bz.sample_x 0) 0 Bezier.EPSILON = true := by
    rw [Bezier.sample_x_zero, approx_eq_true_iff]
    norm_num [Bezier.EPSILON]
  have h8 : bz.newton_loop 0 Bezier.NEWTON_ITERATIONS 0 = some 0 :=
    Bezier.newton_loop_succ_close bz 0 0 7 h
  unfold Bezier.solve_x
  rw [h8]

/-- C9: for every curve whose six coefficients are finite (any rational
coefficients in this model), `calculate(curve, 0.0)` returns exactly `0`:
the first Newton iteration evaluates x at `t = 0`, which is exactly 0 in the
Horner form, triggers the early convergence return with `t = 0`, and
`sample_y 0` is exactly 0. -/
theorem calculate_zero_exact (bz : Bezier) (fuel : ℕ) :
    bz.solve_x 0 fuel = 0 ∧ bz.sample_y 0 = 0 ∧ bz.calculate 0 fuel = 0 := by
  refine ⟨Bezier.solve_x_zero bz fuel, Bezier.sample_y_zero bz, ?_⟩
  rw [Bezier.calculate, Bezier.solve_x_zero bz fuel, Bezier.sample_y_zero]

/-- C10: for the y-only tween `CubicBezier(p, q)` of src/lib.rs,
`calculate 0 = 0` and `calculate 1 = 1` exactly, for every choice of the
control values `p` and `q`. -/
theorem cubic_bezier_endpoints_exact (p q : ℚ) :
    CubicBezier.calculate ⟨p, q⟩ 0 = 0 ∧ CubicBezier.calculate ⟨p, q⟩ 1 = 1 := by
  constructor <;> simp [CubicBezier.calculate]

/-- C6: `Construct(x1, y1, x2, y2)` is a pure total function on arbitrary
(rational-valued) inputs and computes its coefficients exactly by the spec's
formulas `cx = 3*x1`, `bx = 3*(x2-x1) - cx`, `ax = 1 - cx - bx` and
`cy = 3*y1`, `by = 3*(y2-y1) - cy`, `ay = 1 - cy - by`. -/
theorem construct_matches_spec_formulas (x1 y1 x2 y2 : ℚ) :
    Bezier.new x1 y1 x2 y2 = specConstruct x1 y1 x2 y2 := rfl

/-- The spec wording of the Newton phase agrees with the source's loop at
every iteration count and guess. -/
theorem specNewtonPhase_eq (bz : Bezier) (x : ℚ) :
    ∀ (n : ℕ) (t : ℚ), specNewtonPhase bz x n t = bz.newton_loop x n t := by
  intro n
  induction n with
  | zero => intro t; rfl
  | succ n ih =>
    intro t
    simp only [specNewtonPhase, Bezier.newton_loop, approx_eq_true_iff,
      Bezier.EPSILON, sub_zero, ih]

/-- The spec wording of the bisection loop agrees with the source's loop at
every fuel, bracket and probe point. -/
theorem specBisection_eq (bz : Bezier) (x : ℚ) :
    ∀ (n : ℕ) (low high t : ℚ),
      specBisection bz x n low high t = bz.bisect x n low high t := by
  intro n
  induction n with
  | zero => intro low high t; rfl
  | succ n ih =>
    intro low high t
    simp only [specBisection, Bezier.bisect, approx_eq_true_iff, Bezier.EPSILON]
    rw [add_comm t ((high - t) / 2), add_comm low ((t - low) / 2)]
    simp only [ih]

/-- C5: the Newton phase follows exactly the spec's steps (initialize
`t := target_x`, at most 8 iterations, early return within EPSILON, abandon
on `|dx| < 1e-6`, Newton update otherwise), and on exhaustion or break the
accumulated `t` is discarded and Phase 2 restarts from the original target:
the solver written from the spec's words coincides with the source's
`solve_x` everywhere. -/
theorem newton_phase_matches_spec (bz : Bezier) (x : ℚ) (fuel : ℕ) :
    (∀ n t, specNewtonPhase bz x n t = bz.newton_loop x n t) ∧
    specSolve bz x fuel = bz.solve_x x fuel := by
  refine ⟨specNewtonPhase_eq bz x, ?_⟩
  unfold specSolve Bezier.solve_x
  rw [show Bezier.NEWTON_ITERATIONS = 8 from rfl, specNewtonPhase_eq]
  cases bz.newton_loop x 8 x with
  | some t => rfl
  | none => simp only [specBisection_eq]

/-- C8 (amended): in exact arithmetic the four preset constants hold exactly
the coefficients that `Bezier::new` produces from the standard CSS control
points ease = (0.25, 0.1, 0.25, 1.0), ease-in = (0.42, 0, 1, 1),
ease-out = (0, 0, 0.58, 1), ease-in-out = (0.42, 0, 0.58, 1). -/
theorem presets_match_construct_exact :
    EASE = Bezier.new 0.25 0.1 0.25 1.0 ∧
    EASE_IN = Bezier.new 0.42 0.0 1.0 1.0 ∧
    EASE_OUT = Bezier.new 0.0 0.0 0.58 1.0 ∧
    EASE_IN_OUT = Bezier.new 0.42 0.0 0.58 1.0 := by
  refine ⟨?_, ?_, ?_, ?_⟩ <;>
    · simp only [EASE, EASE_IN, EASE_OUT, EASE_IN_OUT, Bezier.new, Bezier.mk.injEq,
        Prod.mk.injEq]
      norm_num

/-- The Lipschitz bound is nonnegative. -/
theorem Bezier.lipschitz_x_nonneg (bz : Bezier) : 0 ≤ bz.lipschitz_x := by
  simp only [Bezier.lipschitz_x, rabs_eq_abs]
  positivity

/-- Factorization of a difference of x samples. -/
theorem Bezier.sample_x_sub (bz : Bezier) (s t : ℚ) :
    bz.sample_x t - bz.sample_x s =
      (t - s) * (bz.x.1 * (t ^ 2 + t * s + s ^ 2) + bz.x.2.1 * (t + s) + bz.x.2.2) := by
  simp only [Bezier.sample_x]; ring

/-- On the unit interval, `sample_x` is Lipschitz with constant
`lipschitz_x`. -/
theorem Bezier.sample_x_lipschitz (bz : Bezier) {s t : ℚ}
    (hs0 : 0 ≤ s) (hs1 : s ≤ 1) (ht0 : 0 ≤ t) (ht1 : t ≤ 1) :
    |bz.sample_x t - bz.sample_x s| ≤ bz.lipschitz_x * |t - s| := by
  rw [Bezier.sample_x_sub, abs_mul, mul_comm]
  apply mul_le_mul_of_nonneg_right ?_ (abs_nonneg _)
  have ha : |bz.x.1 * (t ^ 2 + t * s + s ^ 2)| ≤ 3 * |bz.x.1| := by
    rw [abs_mul]
    have hqnn : (0 : ℚ) ≤ t ^ 2 + t * s + s ^ 2 := by
      nlinarith [sq_nonneg (t + s), sq_nonneg t, sq_nonneg s]
    have hq : |t ^ 2 + t * s + s ^ 2| ≤ 3 := by
      rw [abs_of_nonneg hqnn]
      nlinarith [mul_nonneg (sub_nonneg.2 ht1) ht0, mul_nonneg (sub_nonneg.2 hs1) hs0,
        mul_nonneg hs0 (sub_nonneg.2 ht1)]
    have := mul_le_mul_of_nonneg_left hq (abs_nonneg bz.x.1)
    linarith
  have hb : |bz.x.2.1 * (t + s)| ≤ 2 * |bz.x.2.1| := by
    rw [abs_mul]
    have hq : |t + s| ≤ 2 := by
      rw [abs_of_nonneg (by linarith)]
      linarith
    have := mul_le_mul_of_nonneg_left hq (abs_nonneg bz.x.2.1)
    linarith
  have tri := abs_add_three (bz.x.1 * (t ^ 2 + t * s + s ^ 2)) (bz.x.2.1 * (t + s)) bz.x.2.2
  simp only [Bezier.lipschitz_x, rabs_eq_abs]
  linarith

/-- Inside a bracket whose endpoint samples straddle the target, every probe
value is within `2 L (high - low)` of the target. -/
theorem Bezier.probe_within (bz : Bezier) {xt low high t : ℚ}
    (h0 : 0 ≤ low) (h1 : high ≤ 1) (hlt : low ≤ t) (hth : t ≤ high)
    (hbl : bz.sample_x low ≤ xt) (hbh : xt ≤ bz.sample_x high) :
    |bz.sample_x t - xt| ≤ 2 * bz.lipschitz_x * (high - low) := by
  have hlh : low ≤ high := le_trans hlt hth
  have hl1 : low ≤ 1 := le_trans hlh h1
  have ht0 : 0 ≤ t := le_trans h0 hlt
  have ht1 : t ≤ 1 := le_trans hth h1
  have hh0 : 0 ≤ high := le_trans h0 hlh
  have lip1 : |bz.sample_x t - bz.sample_x low| ≤ bz.lipschitz_x * |t - low| :=
    bz.sample_x_lipschitz h0 hl1 ht0 ht1
  have lip2 : |bz.sample_x high - bz.sample_x low| ≤ bz.lipschitz_x * |high - low| :=
    bz.sample_x_lipschitz h0 hl1 hh0 h1
  rw [abs_of_nonneg (by linarith : (0:ℚ) ≤ t - low)] at lip1
  rw [abs_of_nonneg (by linarith : (0:ℚ) ≤ high - low)] at lip2
  have hLnn := bz.lipschitz_x_nonneg
  have tri : |bz.sample_x t - xt| ≤
      |bz.sample_x t - bz.sample_x low| + |bz.sample_x low - xt| :=
    abs_sub_le _ _ _
  have e3 : |bz.sample_x low - xt| = xt - bz.sample_x low := by
    rw [abs_sub_comm]; exact abs_of_nonneg (by linarith)
  rw [e3] at tri
  have h5 : bz.sample_x high - bz.sample_x low ≤ bz.lipschitz_x * (high - low) := by
    have := le_abs_self (bz.sample_x high - bz.sample_x low)
    linarith
  have h6 : |bz.sample_x t - bz.sample_x low| ≤ bz.lipschitz_x * (high - low) := by
    have : bz.lipschitz_x * (t - low) ≤ bz.lipschitz_x * (high - low) :=
      mul_le_mul_of_nonneg_left (by linarith) hLnn
    linarith
  linarith

/-- One-step unfolding of the bisection loop at positive fuel. -/
theorem Bezier.bisect_succ (bz : Bezier) (x : ℚ) (fuel : ℕ) (low high t : ℚ) :
    bz.bisect x (fuel + 1) low high t =
      if low < high then
        if approx_eq (bz.sample_x t) x Bezier.EPSILON then t
        else if x > bz.sample_x t then bz.bisect x fuel t high ((high - t) / 2 + t)
        else bz.bisect x fuel low t ((t - low) / 2 + low)
      else t := rfl

/-- One-step unfolding of the Newton loop at a positive iteration count. -/
theorem Bezier.newton_loop_succ (bz : Bezier) (x : ℚ) (n : ℕ) (t : ℚ) :
    bz.newton_loop x (n + 1) t =
      if approx_eq (bz.sample_x t) x Bezier.EPSILON then some t
      else if approx_eq (bz.sample_derivative_x t) 0 (1 / 1000000) then none
      else bz.newton_loop x n (t - (bz.sample_x t - x) / bz.sample_derivative_x t) := rfl

/-- Whenever the Newton loop returns a value, that value satisfies the
convergence tolerance. -/
theorem Bezier.newton_loop_eps (bz : Bezier) (x : ℚ) :
    ∀ (n : ℕ) (t u : ℚ), bz.newton_loop x n t = some u →
      |bz.sample_x u - x| < Bezier.EPSILON := by
  intro n
  induction n with
  | zero => intro t u h; exact Option.noConfusion h
  | succ n ih =>
    intro t u h
    rw [Bezier.newton_loop_succ] at h
    by_cases hclose : approx_eq (bz.sample_x t) x Bezier.EPSILON = true
    · rw [if_pos hclose] at h
      cases h
      exact (approx_eq_true_iff _ _ _).1 hclose
    · rw [if_neg hclose] at h
      by_cases hdx : approx_eq (bz.sample_derivative_x t) 0 (1 / 1000000) = true
      · rw [if_pos hdx] at h; exact Option.noConfusion h
      · rw [if_neg hdx] at h; exact ih _ _ h

/-- Unfolding of the bisection loop at zero fuel. -/
theorem Bezier.bisect_zero (bz : Bezier) (x : ℚ) (low high t : ℚ) :
    bz.bisect x 0 low high t = t := rfl

/-- Convergence and fuel-independence of the bisection loop.  If the bracket
`[low, high]` lies inside `[0,1]`, the endpoint samples straddle the target,
the probe is the bracket midpoint, and `2 L (high - low) < EPSILON * 2 ^ k`,
then with fuel at least `k + 1` the loop's result no longer depends on the
fuel and it satisfies the convergence tolerance: the loop reached one of its
exits rather than running out of fuel. -/
theorem Bezier.bisect_converges (bz : Bezier) (xt : ℚ) :
    ∀ (k : ℕ) (low high : ℚ),
      0 ≤ low → high ≤ 1 → low ≤ high →
      bz.sample_x low ≤ xt → xt ≤ bz.sample_x high →
      2 * bz.lipschitz_x * (high - low) < Bezier.EPSILON * 2 ^ k →
      (∀ fuel, k + 1 ≤ fuel →
        bz.bisect xt fuel low high ((high - low) / 2 + low) =
          bz.bisect xt (k + 1) low high ((high - low) / 2 + low)) ∧
      |bz.sample_x (bz.bisect xt (k + 1) low high ((high - low) / 2 + low)) - xt| <
        Bezier.EPSILON := by
  intro k
  induction k with
  | zero =>
    intro low high h0 h1 hlh hbl hbh hk
    rw [pow_zero, mul_one] at hk
    by_cases hcase : low < high
    · by_cases hclose :
        approx_eq (bz.sample_x ((high - low) / 2 + low)) xt Bezier.EPSILON = true
      · constructor
        · intro fuel hf
          obtain ⟨m, rfl⟩ : ∃ m, fuel = m + 1 := ⟨fuel - 1, by omega⟩
          simp only [Bezier.bisect_succ bz xt m, Bezier.bisect_succ bz xt 0,
            if_pos hcase, if_pos hclose]
        · rw [Bezier.bisect_succ, if_pos hcase, if_pos hclose]
          exact (approx_eq_true_iff _ _ _).1 hclose
      · exfalso
        have hprobe := bz.probe_within h0 h1
          (by linarith : low ≤ (high - low) / 2 + low)
          (by linarith : (high - low) / 2 + low ≤ high) hbl hbh
        rw [approx_eq_true_iff] at hclose
        exact hclose (lt_of_le_of_lt hprobe hk)
    · have heq : high = low := le_antisymm (not_lt.1 hcase) hlh
      subst heq
      have hxt : xt = bz.sample_x high := le_antisymm hbh hbl
      constructor
      · intro fuel hf
        obtain ⟨m, rfl⟩ : ∃ m, fuel = m + 1 := ⟨fuel - 1, by omega⟩
        simp only [Bezier.bisect_succ bz xt m, Bezier.bisect_succ bz xt 0, if_neg hcase]
      · rw [Bezier.bisect_succ, if_neg hcase, hxt]
        have hp : (high - high) / 2 + high = high := by ring
        rw [hp, sub_self, abs_zero]
        norm_num [Bezier.EPSILON]
  | succ k ih =>
    intro low high h0 h1 hlh hbl hbh hk
    by_cases hcase : low < high
    · by_cases hclose :
        approx_eq (bz.sample_x ((high - low) / 2 + low)) xt Bezier.EPSILON = true
      · constructor
        · intro fuel hf
          obtain ⟨m, rfl⟩ : ∃ m, fuel = m + 1 := ⟨fuel - 1, by omega⟩
          simp only [Bezier.bisect_succ bz xt m, Bezier.bisect_succ bz xt (k + 1),
            if_pos hcase, if_pos hclose]
        · rw [show k + 1 + 1 = (k + 1) + 1 from rfl, Bezier.bisect_succ,
            if_pos hcase, if_pos hclose]
          exact (approx_eq_true_iff _ _ _).1 hclose
      · have hwidth : 2 * bz.lipschitz_x * ((high - low) / 2) < Bezier.EPSILON * 2 ^ k := by
          rw [pow_succ] at hk
          nlinarith [hk]
        by_cases hgt : xt > bz.sample_x ((high - low) / 2 + low)
        · -- narrow to the upper half: low := t
          have hw : high - ((high - low) / 2 + low) = (high - low) / 2 := by ring
          have H := ih ((high - low) / 2 + low) high
            (by linarith) h1 (by linarith) (le_of_lt hgt) hbh (by rw [hw]; exact hwidth)
          constructor
          · intro fuel hf
            obtain ⟨m, rfl⟩ : ∃ m, fuel = m + 1 := ⟨fuel - 1, by omega⟩
            have hm : k + 1 ≤ m := by omega
            simp only [Bezier.bisect_succ bz xt m, Bezier.bisect_succ bz xt (k + 1),
              if_pos hcase, if_neg hclose, if_pos hgt]
            exact H.1 m hm
          · rw [show k + 1 + 1 = (k + 1) + 1 from rfl, Bezier.bisect_succ,
              if_pos hcase, if_neg hclose, if_pos hgt]
            exact H.2
        · -- narrow to the lower half: high := t
          have hw : (high - low) / 2 + low - low = (high - low) / 2 := by ring
          have H := ih low ((high - low) / 2 + low)
            h0 (by linarith) (by linarith) hbl (not_lt.1 hgt) (by rw [hw]; exact hwidth)
          constructor
          · intro fuel hf
            obtain ⟨m, rfl⟩ : ∃ m, fuel = m + 1 := ⟨fuel - 1, by omega⟩
            have hm : k + 1 ≤ m := by omega
            simp only [Bezier.bisect_succ bz xt m, Bezier.bisect_succ bz xt (k + 1),
              if_pos hcase, if_neg hclose, if_neg hgt]
            exact H.1 m hm
          · rw [show k + 1 + 1 = (k + 1) + 1 from rfl, Bezier.bisect_succ,
              if_pos hcase, if_neg hclose, if_neg hgt]
            exact H.2
    · have heq : high = low := le_antisymm (not_lt.1 hcase) hlh
      subst heq
      have hxt : xt = bz.sample_x high := le_antisymm hbh hbl
      constructor
      · intro fuel hf
        obtain ⟨m, rfl⟩ : ∃ m, fuel = m + 1 := ⟨fuel - 1, by omega⟩
        simp only [Bezier.bisect_succ bz xt m, Bezier.bisect_succ bz xt (k + 1), if_neg hcase]
      · rw [show k + 1 + 1 = (k + 1) + 1 from rfl, Bezier.bisect_succ, if_neg hcase, hxt]
        have hp : (high - high) / 2 + high = high := by ring
        rw [hp, sub_self, abs_zero]
        norm_num [Bezier.EPSILON]

/-- Entry theorem for the solver: for a curve whose x coefficients sum to 1
(which every constructed curve satisfies) and a target in `[0,1]`, once the
fuel of the bisection loop reaches `k + 2` — where `k` satisfies
`2 L < EPSILON * 2 ^ k` — the result of `solve_x` no longer depends on the
fuel and it samples within EPSILON of the target. -/
theorem Bezier.solve_x_eps (bz : Bezier) (hsum : bz.x.1 + bz.x.2.1 + bz.x.2.2 = 1)
    {xt : ℚ} (h0 : 0 ≤ xt) (h1 : xt ≤ 1) (k : ℕ)
    (hk : 2 * bz.lipschitz_x < Bezier.EPSILON * 2 ^ k) :
    ∀ fuel, k + 2 ≤ fuel →
      bz.solve_x xt fuel = bz.solve_x xt (k + 2) ∧
      |bz.sample_x (bz.solve_x xt fuel) - xt| < Bezier.EPSILON := by
  intro fuel hf
  unfold Bezier.solve_x
  cases hN : bz.newton_loop xt Bezier.NEWTON_ITERATIONS xt with
  | some u =>
    exact ⟨rfl, bz.newton_loop_eps xt _ _ _ hN⟩
  | none =>
    simp only [if_neg (not_lt.2 h0), if_neg (not_lt.2 h1)]
    obtain ⟨m, rfl⟩ : ∃ m, fuel = m + 1 := ⟨fuel - 1, by omega⟩
    have hm : k + 1 ≤ m := by omega
    have hLnn := bz.lipschitz_x_nonneg
    simp only [Bezier.bisect_succ bz xt m, Bezier.bisect_succ bz xt (k + 1),
      if_pos (by norm_num : (0:ℚ) < 1)]
    by_cases hclose : approx_eq (bz.sample_x xt) xt Bezier.EPSILON = true
    · simp only [if_pos hclose]
      exact ⟨by trivial, (approx_eq_true_iff _ _ _).1 hclose⟩
    · simp only [if_neg hclose]
      by_cases hgt : xt > bz.sample_x xt
      · simp only [if_pos hgt]
        have hbh : xt ≤ bz.sample_x 1 := by rw [Bezier.sample_x_one, hsum]; exact h1
        have hk' : 2 * bz.lipschitz_x * (1 - xt) < Bezier.EPSILON * 2 ^ k := by
          nlinarith [hk]
        have H := bz.bisect_converges xt k xt 1 h0 le_rfl h1 (le_of_lt hgt) hbh hk'
        exact ⟨H.1 m hm, by rw [H.1 m hm]; exact H.2⟩
      · simp only [if_neg hgt]
        have hbl : bz.sample_x 0 ≤ xt := by rw [Bezier.sample_x_zero]; exact h0
        have hk' : 2 * bz.lipschitz_x * (xt - 0) < Bezier.EPSILON * 2 ^ k := by
          nlinarith [hk]
        have H := bz.bisect_converges xt k 0 xt le_rfl h1 h0 hbl (not_lt.1 hgt) hk'
        exact ⟨H.1 m hm, by rw [H.1 m hm]; exact H.2⟩

/-- For every constructed curve and every target in `[0,1]`, the solver's
result stabilizes at some finite fuel: the bisection loop reaches an exit. -/
theorem Bezier.solve_x_stabilizes (x1 y1 x2 y2 xt : ℚ) (h0 : 0 ≤ xt) (h1 : xt ≤ 1) :
    ∃ (N : ℕ) (r : ℚ), ∀ fuel, N ≤ fuel → (Bezier.new x1 y1 x2 y2).solve_x xt fuel = r := by
  obtain ⟨k, hk⟩ := pow_unbounded_of_one_lt
    (2 * (Bezier.new x1 y1 x2 y2).lipschitz_x / Bezier.EPSILON) (by norm_num : (1:ℚ) < 2)
  have heps : (0:ℚ) < Bezier.EPSILON := by norm_num [Bezier.EPSILON]
  have hk' : 2 * (Bezier.new x1 y1 x2 y2).lipschitz_x < Bezier.EPSILON * 2 ^ k := by
    rw [div_lt_iff heps] at hk
    linarith
  refine ⟨k + 2, (Bezier.new x1 y1 x2 y2).solve_x xt (k + 2), fun fuel hf => ?_⟩
  exact ((Bezier.new x1 y1 x2 y2).solve_x_eps (Bezier.new_x_sum x1 y1 x2 y2)
    h0 h1 k hk' fuel hf).1

/-- For a negative target, the solver's result never depends on the fuel:
either Newton converges, or the clamp `if t < low` returns 0. -/
theorem Bezier.solve_x_fuel_indep_of_neg (bz : Bezier) {xt : ℚ} (h : xt < 0) (fuel : ℕ) :
    bz.solve_x xt fuel = bz.solve_x xt 0 := by
  unfold Bezier.solve_x
  cases hN : bz.newton_loop xt Bezier.NEWTON_ITERATIONS xt with
  | some u => rfl
  | none => simp only [if_pos h]

/-- For a target above 1, the solver's result never depends on the fuel:
either Newton converges, or the clamp `if t > high` returns 1. -/
theorem Bezier.solve_x_fuel_indep_of_gt (bz : Bezier) {xt : ℚ} (h : xt > 1) (fuel : ℕ) :
    bz.solve_x xt fuel = bz.solve_x xt 0 := by
  unfold Bezier.solve_x
  cases hN : bz.newton_loop xt Bezier.NEWTON_ITERATIONS xt with
  | some u => rfl
  | none => simp only [if_pos h, if_neg (by linarith : ¬ xt < 0)]

/-- C1: for every curve built from control points whose x polynomial is
monotonic non-decreasing on `[0,1]` and every `t ∈ [0,1]`, the solver's
output satisfies `|evaluate_x(curve, solve(curve, t)) - t| < EPSILON` with
`EPSILON = 1/200`, once the fuel of the (uncapped in the source) bisection
loop reaches `k + 2` for any `k` with `2 L < EPSILON * 2 ^ k`. -/
theorem solve_eps_on_monotone_curve (x1 y1 x2 y2 : ℚ)
    (hmono : ∀ s t : ℚ, 0 ≤ s → s ≤ t → t ≤ 1 →
      (Bezier.new x1 y1 x2 y2).sample_x s ≤ (Bezier.new x1 y1 x2 y2).sample_x t)
    (t : ℚ) (h0 : 0 ≤ t) (h1 : t ≤ 1) (k fuel : ℕ)
    (hk : 2 * (Bezier.new x1 y1 x2 y2).lipschitz_x < Bezier.EPSILON * 2 ^ k)
    (hf : k + 2 ≤ fuel) :
    |(Bezier.new x1 y1 x2 y2).sample_x ((Bezier.new x1 y1 x2 y2).solve_x t fuel) - t| <
      Bezier.EPSILON :=
  ((Bezier.new x1 y1 x2 y2).solve_x_eps (Bezier.new_x_sum x1 y1 x2 y2) h0 h1 k hk fuel hf).2

/-- Witness for C1 at the standard ease-in-out control points
`(0.42, 0, 0.58, 1)` and `t = 0.5`, with `k = 11` and fuel 16. -/
theorem solve_eps_on_monotone_curve_witness :
    (∀ s t : ℚ, 0 ≤ s → s ≤ t → t ≤ 1 →
      (Bezier.new 0.42 0 0.58 1).sample_x s ≤ (Bezier.new 0.42 0 0.58 1).sample_x t) ∧
    (0 ≤ (0.5 : ℚ)) ∧ ((0.5 : ℚ) ≤ 1) ∧
    (2 * (Bezier.new 0.42 0 0.58 1).lipschitz_x < Bezier.EPSILON * 2 ^ 11) ∧
    ((11 : ℕ) + 2 ≤ 16) ∧
    |(Bezier.new 0.42 0 0.58 1).sample_x ((Bezier.new 0.42 0 0.58 1).solve_x 0.5 16) - 0.5| <
      Bezier.EPSILON := by
  have hmono : ∀ s t : ℚ, 0 ≤ s → s ≤ t → t ≤ 1 →
      (Bezier.new 0.42 0 0.58 1).sample_x s ≤ (Bezier.new 0.42 0 0.58 1).sample_x t := by
    intro s t hs hst ht
    simp only [Bezier.new, Bezier.sample_x]
    nlinarith [mul_nonneg (sub_nonneg.2 hst) (sq_nonneg (t + s - 1)),
      mul_nonneg (sub_nonneg.2 hst) (sq_nonneg (t - s)), sub_nonneg.2 hst]
  have hk : 2 * (Bezier.new 0.42 0 0.58 1).lipschitz_x < Bezier.EPSILON * 2 ^ 11 := by
    norm_num [Bezier.lipschitz_x, Bezier.new, rabs, Bezier.EPSILON]
  exact ⟨hmono, by norm_num, by norm_num, hk, by norm_num,
    solve_eps_on_monotone_curve 0.42 0 0.58 1 hmono 0.5 (by norm_num) (by norm_num)
      11 16 hk (by norm_num)⟩

/-- C2 (amended): in the exact-arithmetic model, for every constructed curve
(monotonic or not) and every target in `[0,1]`, the bisection fallback of
`solve` terminates: at some finite fuel the result stabilizes, the loop
having reached one of its exits.  Under f32 rounding this universal
termination fails — see the counterexample, where the loop repeats a state
bit-for-bit forever. -/
theorem bisection_terminates (x1 y1 x2 y2 xt : ℚ) (h0 : 0 ≤ xt) (h1 : xt ≤ 1) :
    ∃ (N : ℕ) (r : ℚ), ∀ fuel, N ≤ fuel → (Bezier.new x1 y1 x2 y2).solve_x xt fuel = r :=
  Bezier.solve_x_stabilizes x1 y1 x2 y2 xt h0 h1

/-- Witness for C2 at a curve with a non-monotonic x polynomial
(control points `x1 = 2`, `x2 = -1`) and target `0.5`. -/
theorem bisection_terminates_witness :
    (0 ≤ (0.5:ℚ)) ∧ ((0.5:ℚ) ≤ 1) ∧
    ∃ (N : ℕ) (r : ℚ), ∀ fuel, N ≤ fuel → (Bezier.new 2 0 (-1) 0).solve_x 0.5 fuel = r :=
  ⟨by norm_num, by norm_num, bisection_terminates 2 0 (-1) 0 0.5 (by norm_num) (by norm_num)⟩

/-- C3 (counterexample): the claim fails for targets outside `[0,1]`.  For the
curve built from control points `(0.5, 0, 0.8, 0)` the x polynomial satisfies
`sample_x 5 = 5` exactly, so Newton's first convergence test succeeds at the
initial guess and `solve` returns `5` — farther than EPSILON beyond the unit
interval, for every fuel (shown at fuel 100). -/
theorem solve_returns_far_outside_unit :
    (Bezier.new 0.5 0 0.8 0).solve_x 5 100 = 5 ∧ (1 : ℚ) + Bezier.EPSILON < 5 := by
  constructor
  · with_unfolding_all rfl
  · norm_num [Bezier.EPSILON]

/-- C3 (amended): in the exact-arithmetic model, for every constructed curve
and every target in `[0,1]`, `solve` returns a parameter whose x sample is
within EPSILON of the target (with fuel at least `k + 2` where
`2 L < EPSILON * 2 ^ k`).  Two caveats are forced by the counterexamples: for
targets outside `[0,1]` (and, for non-monotonic curves, even some in-range
targets) the returned parameter can lie far outside the unit interval, and
under f32 rounding extreme-coefficient curves can keep the bisection from
ever returning, so the EPSILON contract holds of the f32 code only where
rounding noise stays below EPSILON (e.g. the monotone curves of C1). -/
theorem solve_eps_on_unit_target (x1 y1 x2 y2 t : ℚ) (h0 : 0 ≤ t) (h1 : t ≤ 1)
    (k fuel : ℕ)
    (hk : 2 * (Bezier.new x1 y1 x2 y2).lipschitz_x < Bezier.EPSILON * 2 ^ k)
    (hf : k + 2 ≤ fuel) :
    |(Bezier.new x1 y1 x2 y2).sample_x ((Bezier.new x1 y1 x2 y2).solve_x t fuel) - t| <
      Bezier.EPSILON :=
  ((Bezier.new x1 y1 x2 y2).solve_x_eps (Bezier.new_x_sum x1 y1 x2 y2) h0 h1 k hk fuel hf).2

/-- Witness for the amended C3 at control points `(0.25, 0, 0.75, 0)` and
target `0.3`, with `k = 11` and fuel 16. -/
theorem solve_eps_on_unit_target_witness :
    (0 ≤ (0.3:ℚ)) ∧ ((0.3:ℚ) ≤ 1) ∧
    (2 * (Bezier.new 0.25 0 0.75 0).lipschitz_x < Bezier.EPSILON * 2 ^ 11) ∧
    ((11:ℕ) + 2 ≤ 16) ∧
    |(Bezier.new 0.25 0 0.75 0).sample_x ((Bezier.new 0.25 0 0.75 0).solve_x 0.3 16) - 0.3| <
      Bezier.EPSILON := by
  have hk : 2 * (Bezier.new 0.25 0 0.75 0).lipschitz_x < Bezier.EPSILON * 2 ^ 11 := by
    norm_num [Bezier.lipschitz_x, Bezier.new, rabs, Bezier.EPSILON]
  exact ⟨by norm_num, by norm_num, hk, by norm_num,
    solve_eps_on_unit_target 0.25 0 0.75 0 0.3 (by norm_num) (by norm_num) 11 16 hk
      (by norm_num)⟩

/-- C4 (amended): `calculate` never raises an error or panics, and
out-of-domain `t` is handled by the clamps rather than rejection; in the
exact-arithmetic model it is moreover total — for every constructed curve and
input `t` the solver's loops reach an exit and the result stabilizes at some
finite fuel.  Under f32 neither of the claim's stronger guarantees survives:
the returned value need not be finite (this claim's counterexample overflows
to `+∞`, and overflowed coefficients can yield NaN), and the bisection loop
need not terminate (it can repeat a state forever, as the C2 counterexample
shows), the source having no iteration cap. -/
theorem calculate_total_stabilizes (x1 y1 x2 y2 t : ℚ) :
    ∃ (N : ℕ) (r : ℚ), ∀ fuel, N ≤ fuel →
      (Bezier.new x1 y1 x2 y2).calculate t fuel = r := by
  rcases lt_or_le t 0 with hlt | h0
  · refine ⟨0, (Bezier.new x1 y1 x2 y2).sample_y ((Bezier.new x1 y1 x2 y2).solve_x t 0),
      fun fuel _ => ?_⟩
    rw [Bezier.calculate, Bezier.solve_x_fuel_indep_of_neg _ hlt fuel]
  · rcases le_or_lt t 1 with h1 | hgt
    · obtain ⟨N, r, hr⟩ := Bezier.solve_x_stabilizes x1 y1 x2 y2 t h0 h1
      refine ⟨N, (Bezier.new x1 y1 x2 y2).sample_y r, fun fuel hf => ?_⟩
      rw [Bezier.calculate, hr fuel hf]
    · refine ⟨0, (Bezier.new x1 y1 x2 y2).sample_y ((Bezier.new x1 y1 x2 y2).solve_x t 0),
        fun fuel _ => ?_⟩
      rw [Bezier.calculate, Bezier.solve_x_fuel_indep_of_gt _ hgt fuel]

set_option maxRecDepth 100000 in
/-- C8 (counterexample): under f32 arithmetic the `by` coefficient that
`Bezier::new` computes from the CSS ease control points
`(0.25, 0.1, 0.25, 1.0)` is `10066329 / 2^22 = 2.3999998569...`, one ulp
below the stored literal `2.4f32 = 10066330 / 2^22`: the `EASE` constant does
not hold the same f32 values as the constructor's output. -/
theorem ease_by_coeff_f32_mismatch :
    (BezierF32.new (roundF32 0.25) (roundF32 0.1) (roundF32 0.25) (roundF32 1)).y.2.1 =
      F32.fin (10066329 / 4194304) ∧
    roundF32 2.4 = F32.fin (10066330 / 4194304) ∧
    (10066329 / 4194304 : ℚ) ≠ 10066330 / 4194304 := by
  refine ⟨?_, ?_, by norm_num⟩
  · with_unfolding_all rfl
  · with_unfolding_all rfl

set_option maxRecDepth 100000 in
/-- C4 (counterexample): under f32 arithmetic `calculate` can return a
non-finite value for a finite input on a curve built from finite control
points.  With control points `(0.33333334, 1.0, 0.6666667, 1.0)` (the f32
values nearest 1/3 and 2/3) the x coefficients are exactly `(0, 0, 1)`, so
`sample_x t = t`; at the finite f32 input `t = 2^100` Newton's first
convergence test succeeds immediately and `sample_y (2^100)` overflows to
`+∞`. -/
theorem calculate_f32_overflows_to_inf :
    BezierF32.new (F32.fin (11184811 / 33554432)) (F32.fin 1)
        (F32.fin (11184811 / 16777216)) (F32.fin 1) =
      { x := (F32.fin 0, F32.fin 0, F32.fin 1), y := (F32.fin 1, F32.fin (-3), F32.fin 3) } ∧
    (BezierF32.new (F32.fin (11184811 / 33554432)) (F32.fin 1)
        (F32.fin (11184811 / 16777216)) (F32.fin 1)).calculate
      (F32.fin (2 ^ 100)) 10 = F32.inf false := by
  constructor
  · with_unfolding_all rfl
  · with_unfolding_all rfl

set_option maxRecDepth 400000 in
/-- C2 (counterexample): under f32 arithmetic the bisection loop does not
terminate for every curve and in-range target.  For the curve from control
points `(300000, 0, -300000, 0)` and target `0.95`, the Newton phase exhausts
its 8 iterations, neither clamp fires, and after 21 loop iterations the state
reaches `low = 16777215/2^24` (the largest f32 below 1), `high = 1`, `t = 1`.
At that state the guard `low < high` still holds and the EPSILON exit does
not fire (`sample_x 1 = 1` exactly, `|1 - 0.95| ≥ 1/200`), yet one loop
iteration reproduces the state bit-for-bit: `0.95 > 1` is false, so
`high := t` changes nothing, and the recomputed midpoint rounds (ties to
even) back to `1`.  The source's `while low < high` loop therefore repeats
this state forever; in the fuel model every finite fuel is exhausted and
hands back `t = 1`, whose sample misses the target by `0.05`. -/
theorem bisection_repeats_state_under_f32 :
    (hangCurve.newton_loop hangTarget 8 hangTarget = none) ∧
    (F32.lt hangTarget (roundF32 0) = false) ∧
    (F32.lt (roundF32 1) hangTarget = false) ∧
    (∀ fuel, hangCurve.bisect hangTarget (fuel + 21) (roundF32 0) (roundF32 1) hangTarget =
      hangCurve.bisect hangTarget fuel hangLow (F32.fin 1) (F32.fin 1)) ∧
    (F32.lt hangLow (F32.fin 1) = true) ∧
    (approx_eq32 (hangCurve.sample_x (F32.fin 1)) hangTarget EPSILON32 = false) ∧
    (F32.lt (hangCurve.sample_x (F32.fin 1)) hangTarget = false) ∧
    (∀ fuel, hangCurve.bisect hangTarget (fuel + 1) hangLow (F32.fin 1) (F32.fin 1) =
      hangCurve.bisect hangTarget fuel hangLow (F32.fin 1) (F32.fin 1)) ∧
    (∀ fuel, hangCurve.bisect hangTarget fuel hangLow (F32.fin 1) (F32.fin 1) = F32.fin 1) := by
  have hstep : ∀ fuel, hangCurve.bisect hangTarget (fuel + 1) hangLow (F32.fin 1) (F32.fin 1) =
      hangCurve.bisect hangTarget fuel hangLow (F32.fin 1) (F32.fin 1) := by
    intro fuel
    with_unfolding_all rfl
  have hfix : ∀ fuel, hangCurve.bisect hangTarget fuel hangLow (F32.fin 1) (F32.fin 1) =
      F32.fin 1 := by
    intro fuel
    induction fuel with
    | zero => rfl
    | succ n ih => rw [hstep n]; exact ih
  refine ⟨?_, ?_, ?_, fun fuel => ?_, ?_, ?_, ?_, hstep, hfix⟩
  · with_unfolding_all rfl
  · with_unfolding_all rfl
  · with_unfolding_all rfl
  · with_unfolding_all rfl
  · with_unfolding_all rfl
  · with_unfolding_all rfl
  · with_unfolding_all rfl

